import Mathlib

/-!
Verification of the Taxaformer eDNA embedding-fusion-and-clustering pipeline.

The definitions below are shallow embeddings of the Python functions in
`src/ML_backend/oceaneye_pipeline_real.py`, `src/ML_backend/oceaneye_pipeline.py`
and `src/ML_backend/OceanEYE_Kaggle_Pipeline.py`.  Strings are modelled as
`List Char`, numpy matrices as `List (List ℝ)` (one inner list per row), the
pandas cluster column as `List ℤ`, and Python exceptions as `Except String`.
External collaborators (the transformer oracle, the HDBSCAN library, the
numpy random stream) are passed in as function parameters, as the spec treats
them as opaque services.
-/

namespace OceanEYE

/-! ### Sequence preprocessor

Embeds `RealOceanEYEPipeline.preprocess_sequences` (oceaneye_pipeline_real.py,
lines 416-442); `KaggleOceanEYEPipeline.preprocess_sequences` (lines 289-309)
is character-for-character the same transformation on each sequence. -/

/-- Membership test used by the Python comprehension `c in 'ATCG'`. -/
def isACGT (c : Char) : Bool :=
  c = 'A' || c = 'T' || c = 'C' || c = 'G'

/-- One-sequence body of `preprocess_sequences`: upper-case, keep only A/T/C/G,
truncate to the first `max_length` characters when longer, right-pad with 'A'
up to length 50 when shorter. -/
def preprocess_sequences (max_length : Nat) (s : List Char) : List Char :=
  let clean := (s.map Char.toUpper).filter isACGT
  let clean2 := if max_length < clean.length then clean.take max_length else clean
  if clean2.length < 50 then clean2 ++ List.replicate (50 - clean2.length) 'A' else clean2

/-! ### Per-species environmental-parameter summary

Embeds the `env_params` loop of `OceanEYEPipeline.generate_species_report`
(oceaneye_pipeline.py, lines 509-517): entries are created for the names
'temperature', 'salinity', 'ph' that occur among the DataFrame columns.
`OceanEYEPipeline._add_environmental_metadata` (lines 193-219) stores the
acidity column under the name 'pH'. -/

/-- The parameter names iterated over in `generate_species_report`. -/
def species_env_param_names : List String :=
  ["temperature", "salinity", "ph"]

/-- Keys of the `environmental_parameters` dict built for a group whose
DataFrame has the given columns: the loop adds `param` exactly when
`param in group.columns`. -/
def environmental_parameter_keys (columns : List String) : List String :=
  species_env_param_names.filter (fun p => columns.contains p)

/-- Columns of the DataFrame after `load_fasta_data` with simulated metadata
(`_add_environmental_metadata`, oceaneye_pipeline.py lines 193-219). -/
def pipeline_dataframe_columns : List String :=
  ["Sequence_ID", "sequence", "latitude", "longitude", "depth",
   "temperature", "salinity", "pH", "collection_date"]

/-! ### Biodiversity metrics

Embeds `RealOceanEYEPipeline.calculate_biodiversity_metrics`
(oceaneye_pipeline_real.py, lines 587-625); the clustering part of
`KaggleOceanEYEPipeline.calculate_biodiversity_metrics` (lines 406-432) is the
same computation.  The cluster column is a `List ℤ` with -1 the noise
sentinel. -/

/-- Embeds `pandas.Series.value_counts`: one `(value, count)` pair per distinct
value.  (pandas orders the pairs by decreasing count; every use below is
order-insensitive, so the dedup order is kept.) -/
def value_counts (xs : List ℤ) : List (ℤ × ℕ) :=
  xs.dedup.map (fun v => (v, xs.count v))

/-- Embeds `scipy.stats.entropy` with the default natural-log base: the counts
are normalized to a probability vector and the Shannon entropy
`-Σ pᵢ ln pᵢ` is returned. -/
noncomputable def scipy_entropy (pk : List ℝ) : ℝ :=
  (pk.map (fun c => Real.negMulLog (c / pk.sum))).sum

/-- The metrics dict assembled by `calculate_biodiversity_metrics`; the
`shannon_diversity` key is optional because the Python code only inserts it
when `len(cluster_counts) > 1`. -/
structure BiodiversityMetrics where
  total_sequences : ℕ
  total_clusters : ℕ
  novel_candidates : ℕ
  cluster_distribution : List (ℤ × ℕ)
  shannon_diversity : Option ℝ

/-- Embeds `RealOceanEYEPipeline.calculate_biodiversity_metrics` for a run in
which clustering has been performed (the `'cluster' in self.df.columns`
branch), as a function of the cluster column. -/
noncomputable def calculate_biodiversity_metrics (clusters : List ℤ) : BiodiversityMetrics :=
  let cluster_counts := value_counts clusters
  { total_sequences := clusters.length
    total_clusters := ((cluster_counts.map Prod.fst).filter (fun c => c != -1)).length
    novel_candidates := clusters.count (-1)
    cluster_distribution := cluster_counts
    shannon_diversity :=
      if 1 < cluster_counts.length then
        some (scipy_entropy (cluster_counts.map (fun p => (p.2 : ℝ))))
      else none }

/-! ### Embedding fusion

Embeds `RealOceanEYEPipeline.fuse_embeddings` (oceaneye_pipeline_real.py,
lines 514-538; `KaggleOceanEYEPipeline.fuse_embeddings`, lines 363-378, is
identical) and `OceanEYEPipeline.fuse_embeddings` (oceaneye_pipeline.py,
lines 342-363). -/

/-- Row Euclidean norm, `np.linalg.norm(..., axis=1)`. -/
noncomputable def l2_norm (r : List ℝ) : ℝ :=
  Real.sqrt ((r.map (fun x => x * x)).sum)

/-- One row of `embeddings / np.linalg.norm(embeddings, axis=1, keepdims=True)`. -/
noncomputable def l2_normalize_row (r : List ℝ) : List ℝ :=
  r.map (fun x => x / l2_norm r)

/-- Embeds `RealOceanEYEPipeline.fuse_embeddings`: per-row L2 normalization of
both matrices, scaling by the two weights, and row-wise concatenation. -/
noncomputable def fuse_embeddings (dna_weight context_weight : ℝ)
    (dna_embeddings context_embeddings : List (List ℝ)) : List (List ℝ) :=
  List.zipWith
    (fun d c =>
      (l2_normalize_row d).map (fun x => x * dna_weight) ++
      (l2_normalize_row c).map (fun x => x * context_weight))
    dna_embeddings context_embeddings

/-- Embeds `OceanEYEPipeline.fuse_embeddings` (oceaneye_pipeline.py, lines
342-363): `np.concatenate((dna_embeddings, context_embeddings), axis=1)` with
no normalization and no weights. -/
def fuse_embeddings_plain (dna_embeddings context_embeddings : List (List ℝ)) :
    List (List ℝ) :=
  List.zipWith (fun d c => d ++ c) dna_embeddings context_embeddings

/-- The fusion rule in the spec's words, for comparison with the source
embeddings: each row of each matrix is independently L2-normalized, and the
fused row is concatenate(normalized_seq_row * dna_weight,
normalized_context_row * context_weight). -/
noncomputable def fuse_rows_spec (dna_weight context_weight : ℝ)
    (seq_matrix context_matrix : List (List ℝ)) : List (List ℝ) :=
  List.zipWith
    (fun s c =>
      (l2_normalize_row s).map (fun x => x * dna_weight) ++
      (l2_normalize_row c).map (fun x => x * context_weight))
    seq_matrix context_matrix

/-! ### DNA embedding generator

Embeds `RealOceanEYEPipeline.generate_dna_embeddings`
(oceaneye_pipeline_real.py, lines 444-498; `KaggleOceanEYEPipeline`'s copy at
lines 311-350 is the same batched loop) and the per-sequence
`OceanEYEPipeline.generate_dna_embeddings` (oceaneye_pipeline.py, lines
273-318).  The transformer (tokenizer + model + mean pooling) is the opaque
`oracle`; `np.random.randn` entries are the opaque `randn`. -/

/-- Structural helper for `chunk`: the fuel bounds the number of batches and
is always at least the list length at the call site, so the middle case is
unreachable. -/
def chunk_fueled {α : Type} (batch_size : ℕ) : ℕ → List α → List (List α)
  | _, [] => []
  | 0, a :: l => [a :: l]
  | fuel + 1, a :: l =>
      (a :: l.take (batch_size - 1)) :: chunk_fueled batch_size fuel (l.drop (batch_size - 1))

/-- Consecutive chunks of size `batch_size`, the batching of
`for i in range(0, len(sequences), batch_size)`. -/
def chunk {α : Type} (batch_size : ℕ) (l : List α) : List (List α) :=
  chunk_fueled batch_size l.length l

/-- Embeds `np.vstack` on a list of 2-D blocks: fails on an empty list or when
the rows do not all share one width, else returns the stacked rows. -/
def vstack (blocks : List (List (List ℝ))) : Except String (List (List ℝ)) :=
  match blocks.flatten with
  | [] => Except.error "need at least one array to concatenate"
  | r :: rs =>
      if rs.all (fun row => row.length == r.length) then Except.ok (r :: rs)
      else Except.error "all the input array dimensions must match"

/-- One iteration of the batch loop of
`RealOceanEYEPipeline.generate_dna_embeddings`: the try-block calls the oracle
on the batch; the except-block substitutes
`np.random.randn(len(batch_sequences), 768)` — a 768-wide placeholder block
with one row per sequence of the batch. -/
def embed_batch_with_fallback
    (oracle : List (List Char) → Except String (List (List ℝ)))
    (randn : ℕ → ℕ → ℝ) (batch : List (List Char)) : List (List ℝ) :=
  match oracle batch with
  | Except.ok batch_embeddings => batch_embeddings
  | Except.error _ =>
      (List.range batch.length).map (fun i => (List.range 768).map (fun j => randn i j))

/-- Embeds `RealOceanEYEPipeline.generate_dna_embeddings`: preprocess, batch,
run every batch through the oracle with the 768-wide placeholder fallback,
then `np.vstack` the per-batch blocks. -/
def generate_dna_embeddings
    (oracle : List (List Char) → Except String (List (List ℝ)))
    (randn : ℕ → ℕ → ℝ)
    (max_length batch_size : ℕ) (raw_sequences : List (List Char)) :
    Except String (List (List ℝ)) :=
  vstack ((chunk batch_size (raw_sequences.map (preprocess_sequences max_length))).map
    (embed_batch_with_fallback oracle randn))

/-- Embeds `OceanEYEPipeline.generate_dna_embeddings` (oceaneye_pipeline.py,
lines 273-318): one oracle call per raw sequence, substituting
`np.zeros(self.model.config.hidden_size)` when the call fails. -/
def generate_dna_embeddings_plain
    (embed_one : List Char → Except String (List ℝ)) (hidden_size : ℕ)
    (sequences : List (List Char)) : List (List ℝ) :=
  sequences.map (fun seq =>
    match embed_one seq with
    | Except.ok e => e
    | Except.error _ => List.replicate hidden_size 0)

/-- Concrete oracle for the failed-batch analysis: its model has embedding
dimension 512 (as the 50M nucleotide-transformer variant does); it succeeds on
the batch holding the preprocessed 'A' sequence and runs out of memory on any
other batch. -/
def oracle_dim512 : List (List Char) → Except String (List (List ℝ)) :=
  fun batch =>
    if batch = [List.replicate 50 'A'] then Except.ok [List.replicate 512 (0 : ℝ)]
    else Except.error "CUDA out of memory"

/-! ### Environmental metadata, context normalization and the composed run

`_add_environmental_metadata` (oceaneye_pipeline_real.py, lines 394-414) draws
every covariate from the unseeded numpy global stream, modelled as the function
`rng` from draw index to value; column order is latitude, longitude, depth,
temperature, salinity, pH, matching `context_features` in
`generate_context_embeddings` (lines 500-512), and each `np.random` call
consumes the next `num_samples` positions of the stream. -/

/-- One covariate row per record, built from the stream. -/
def add_environmental_metadata (rng : ℕ → ℝ) (num_samples : ℕ) : List (List ℝ) :=
  (List.range num_samples).map (fun i =>
    [rng i, rng (num_samples + i), rng (2 * num_samples + i),
     rng (3 * num_samples + i), rng (4 * num_samples + i), rng (5 * num_samples + i)])

/-- Column mean used by `sklearn.preprocessing.StandardScaler`. -/
noncomputable def column_mean (col : List ℝ) : ℝ := col.sum / col.length

/-- Population standard deviation of a column, as `StandardScaler` fits it. -/
noncomputable def column_std (col : List ℝ) : ℝ :=
  Real.sqrt ((col.map (fun x => (x - column_mean col) ^ 2)).sum / col.length)

open Classical in
/-- One standardized column: `(x - mean) / std`, a zero standard deviation
being replaced by 1 as sklearn does. -/
noncomputable def standardize_column (col : List ℝ) : List ℝ :=
  let scale := if column_std col = 0 then 1 else column_std col
  col.map (fun x => (x - column_mean col) / scale)

/-- Embeds `self.scaler.fit_transform` for the `StandardScaler` of
`RealOceanEYEPipeline.generate_context_embeddings`: column-wise
standardization fitted on the current dataset only. -/
noncomputable def standard_scaler_fit_transform (m : List (List ℝ)) : List (List ℝ) :=
  (m.transpose.map standardize_column).transpose

open Classical in
/-- One min-max scaled column of the `MinMaxScaler` used by
`OceanEYEPipeline.generate_context_embeddings`, a zero range being replaced
by 1 as sklearn does. -/
noncomputable def min_max_scale_column (col : List ℝ) : List ℝ :=
  let mn := col.min?.getD 0
  let mx := col.max?.getD 0
  let range := if mx - mn = 0 then 1 else mx - mn
  col.map (fun x => (x - mn) / range)

/-- Embeds `self.scaler.fit_transform` for the `MinMaxScaler` of
`OceanEYEPipeline.generate_context_embeddings`. -/
noncomputable def min_max_scaler_fit_transform (m : List (List ℝ)) : List (List ℝ) :=
  (m.transpose.map min_max_scale_column).transpose

/-- Embeds the try-block of `RealOceanEYEPipeline.run_full_pipeline`
(oceaneye_pipeline_real.py, lines 641-668): load the model, load the FASTA
data (attaching the simulated covariates from the stream), generate the DNA
embeddings (the `randn` placeholder entries continue the same stream after the
six metadata draws), standardize the context features, fuse, cluster with
HDBSCAN (`hdbscan` returns the labels and membership probabilities of
`fit_predict` and `probabilities_`, or the exception the library raises) and
compute the metrics.  Any phase error short-circuits, as a Python exception
would. -/
noncomputable def pipeline_body_real
    (load_model : Except String Unit)
    (load_fasta_data : Except String (List (List Char)))
    (oracle : List (List Char) → Except String (List (List ℝ)))
    (hdbscan : List (List ℝ) → Except String (List ℤ × List ℝ))
    (rng : ℕ → ℝ) (max_length batch_size : ℕ)
    (dna_weight context_weight : ℝ) :
    Except String ((List ℤ × List ℝ) × BiodiversityMetrics) := do
  let () ← load_model
  let raw ← load_fasta_data
  let dna ← generate_dna_embeddings oracle
      (fun i j => rng (6 * raw.length + 768 * i + j)) max_length batch_size raw
  let context := standard_scaler_fit_transform (add_environmental_metadata rng raw.length)
  let fused := fuse_embeddings dna_weight context_weight dna context
  let assignment ← hdbscan fused
  pure (assignment, calculate_biodiversity_metrics assignment.1)

/-- The structured result of a top-level run: the `status` discriminator plus
the optional keys of the Python result dicts. -/
structure RunResult (α : Type) where
  status : String
  error : Option String
  processing_time : Option ℕ
  report : Option α

/-- Embeds `RealOceanEYEPipeline.run_full_pipeline` (oceaneye_pipeline_real.py,
lines 627-698): the try-block result becomes `{'status': 'success', ...,
'processing_time': duration, 'metrics': metrics}`, and any exception becomes
`{'status': 'failed', 'error': str(e), 'processing_time': partial_elapsed}`. -/
noncomputable def run_full_pipeline_real
    (load_model : Except String Unit)
    (load_fasta_data : Except String (List (List Char)))
    (oracle : List (List Char) → Except String (List (List ℝ)))
    (hdbscan : List (List ℝ) → Except String (List ℤ × List ℝ))
    (rng : ℕ → ℝ) (max_length batch_size : ℕ)
    (dna_weight context_weight : ℝ)
    (success_elapsed partial_elapsed : ℕ) :
    RunResult BiodiversityMetrics :=
  match pipeline_body_real load_model load_fasta_data oracle hdbscan rng
      max_length batch_size dna_weight context_weight with
  | Except.ok r =>
      { status := "success", error := none,
        processing_time := some success_elapsed, report := some r.2 }
  | Except.error e =>
      { status := "failed", error := some e,
        processing_time := some partial_elapsed, report := none }

/-- Embeds the try-block of `OceanEYEPipeline.run_full_pipeline`
(oceaneye_pipeline.py, lines 643-663): load model, load data, per-sequence
embeddings with zero fallback, min-max context scaling, plain concatenation
fusion, HDBSCAN labels. -/
noncomputable def pipeline_body_plain
    (load_model : Except String Unit)
    (load_fasta_data : Except String (List (List Char)))
    (embed_one : List Char → Except String (List ℝ)) (hidden_size : ℕ)
    (hdbscan : List (List ℝ) → Except String (List ℤ))
    (rng : ℕ → ℝ) : Except String (List ℤ) := do
  let () ← load_model
  let raw ← load_fasta_data
  let dna := generate_dna_embeddings_plain embed_one hidden_size raw
  let context := min_max_scaler_fit_transform (add_environmental_metadata rng raw.length)
  let labels ← hdbscan (fuse_embeddings_plain dna context)
  pure labels

/-- Embeds `OceanEYEPipeline.run_full_pipeline` (oceaneye_pipeline.py, lines
622-678): success becomes `{'status': 'success', ...}` and any exception
becomes `{'status': 'error', 'error': str(e)}` — no `processing_time` key in
either branch. -/
noncomputable def run_full_pipeline_plain
    (load_model : Except String Unit)
    (load_fasta_data : Except String (List (List Char)))
    (embed_one : List Char → Except String (List ℝ)) (hidden_size : ℕ)
    (hdbscan : List (List ℝ) → Except String (List ℤ))
    (rng : ℕ → ℝ) : RunResult (List ℤ) :=
  match pipeline_body_plain load_model load_fasta_data embed_one hidden_size
      hdbscan rng with
  | Except.ok labels =>
      { status := "success", error := none, processing_time := none,
        report := some labels }
  | Except.error e =>
      { status := "error", error := some e, processing_time := none,
        report := none }

end OceanEYE

namespace OceanEYE

lemma isACGT_toUpper_fixed {c : Char} (h : isACGT c = true) : Char.toUpper c = c := by
  simp only [isACGT, Bool.or_eq_true, decide_eq_true_eq] at h
  rcases h with ((h | h) | h) | h <;> subst h <;> decide

lemma isACGT_A : isACGT 'A' = true := by decide

lemma preprocess_mem_isACGT {max_length : Nat} {s : List Char} :
    ∀ c ∈ preprocess_sequences max_length s, isACGT c = true := by
  intro c hc
  unfold preprocess_sequences at hc
  simp only at hc
  set clean := (s.map Char.toUpper).filter isACGT with hclean
  have hmem_clean : ∀ x ∈ clean, isACGT x = true := by
    intro x hx
    exact (List.mem_filter.mp hx).2
  set clean2 := if max_length < clean.length then clean.take max_length else clean with hclean2
  have hmem_clean2 : ∀ x ∈ clean2, isACGT x = true := by
    intro x hx
    rcases Nat.lt_or_ge max_length clean.length with h | h
    · rw [hclean2, if_pos h] at hx
      exact hmem_clean x (List.mem_of_mem_take hx)
    · rw [hclean2, if_neg (Nat.not_lt.mpr h)] at hx
      exact hmem_clean x hx
  by_cases hlen : clean2.length < 50
  · rw [if_pos hlen] at hc
    rcases List.mem_append.mp hc with h | h
    · exact hmem_clean2 c h
    · have : c = 'A' := List.eq_of_mem_replicate h
      rw [this]; exact isACGT_A
  · rw [if_neg hlen] at hc
    exact hmem_clean2 c hc

lemma preprocess_length_lower {max_length : Nat} {s : List Char} :
    50 ≤ (preprocess_sequences max_length s).length := by
  unfold preprocess_sequences
  simp only
  set clean := (s.map Char.toUpper).filter isACGT
  set clean2 := if max_length < clean.length then clean.take max_length else clean
  by_cases hlen : clean2.length < 50
  · rw [if_pos hlen]
    rw [List.length_append, List.length_replicate]
    omega
  · rw [if_neg hlen]
    omega

lemma preprocess_length_upper {max_length : Nat} {s : List Char} (hL : 50 ≤ max_length) :
    (preprocess_sequences max_length s).length ≤ max_length := by
  unfold preprocess_sequences
  simp only
  set clean := (s.map Char.toUpper).filter isACGT with hclean
  have hc2 : (if max_length < clean.length then clean.take max_length else clean).length
      ≤ max_length := by
    rcases Nat.lt_or_ge max_length clean.length with h | h
    · rw [if_pos h, List.length_take]; omega
    · rw [if_neg (Nat.not_lt.mpr h)]; omega
  set clean2 := if max_length < clean.length then clean.take max_length else clean
  by_cases hlen : clean2.length < 50
  · rw [if_pos hlen]
    rw [List.length_append, List.length_replicate]
    omega
  · rw [if_neg hlen]
    exact hc2

/-- C4: for `max_length ≥ 50` the preprocessed sequence has length between 50 and
`max_length` and consists solely of the characters A, C, G, T (upper-casing first,
dropping every other character, prefix-truncating to `max_length`, right-padding
with 'A' to the 50-character floor). -/
theorem preprocess_length_and_alphabet_invariant (s : List Char) (max_length : Nat)
    (hL : 50 ≤ max_length) :
    50 ≤ (preprocess_sequences max_length s).length ∧
    (preprocess_sequences max_length s).length ≤ max_length ∧
    ∀ c ∈ preprocess_sequences max_length s, c = 'A' ∨ c = 'C' ∨ c = 'G' ∨ c = 'T' := by
  refine ⟨preprocess_length_lower, preprocess_length_upper hL, ?_⟩
  intro c hc
  have h := preprocess_mem_isACGT c hc
  simp only [isACGT, Bool.or_eq_true, decide_eq_true_eq] at h
  tauto

/-- Witness for C4 at a concrete input. -/
theorem preprocess_length_and_alphabet_invariant_witness :
    50 ≤ (preprocess_sequences 512 ['a', 'N', 'g', 'T']).length ∧
    (preprocess_sequences 512 ['a', 'N', 'g', 'T']).length ≤ 512 ∧
    ∀ c ∈ preprocess_sequences 512 ['a', 'N', 'g', 'T'],
      c = 'A' ∨ c = 'C' ∨ c = 'G' ∨ c = 'T' := by
  have h := preprocess_length_and_alphabet_invariant ['a', 'N', 'g', 'T'] 512 (by decide)
  exact h

/-- C5: preprocessing is idempotent for `max_length ≥ 50`; a preprocessed
sequence is already upper-case A/C/G/T, at most `max_length` long and at least
50 long, so the second pass cleans, truncates and pads vacuously. -/
theorem preprocess_idempotent (s : List Char) (max_length : Nat) (hL : 50 ≤ max_length) :
    preprocess_sequences max_length (preprocess_sequences max_length s) =
      preprocess_sequences max_length s := by
  set out := preprocess_sequences max_length s with hout
  have hmem : ∀ c ∈ out, isACGT c = true := preprocess_mem_isACGT
  have hclean : (out.map Char.toUpper).filter isACGT = out := by
    have hmap : out.map Char.toUpper = out := by
      have := List.map_congr_left (l := out) (f := Char.toUpper) (g := id)
        (fun c hc => isACGT_toUpper_fixed (hmem c hc))
      simpa using this
    rw [hmap]
    exact List.filter_eq_self.mpr hmem
  have hlow : 50 ≤ out.length := preprocess_length_lower
  have hup : out.length ≤ max_length := preprocess_length_upper hL
  conv_lhs => unfold preprocess_sequences
  simp only [hclean]
  rw [if_neg (by omega : ¬ max_length < out.length), if_neg (by omega : ¬ out.length < 50)]

/-- Witness for C5 at a concrete input. -/
theorem preprocess_idempotent_witness :
    preprocess_sequences 60 (preprocess_sequences 60 ['a', 'c', 'N', 't']) =
      preprocess_sequences 60 ['a', 'c', 'N', 't'] :=
  preprocess_idempotent ['a', 'c', 'N', 't'] 60 (by decide)

/-- C10: for `1 ≤ max_length < 50` the preprocessed sequence always has length
exactly 50 — truncation to `max_length` happens before the minimum-length check,
after which the 'A'-padding raises the length back to the 50 floor, strictly
exceeding `max_length`. -/
theorem preprocess_small_max_length_yields_fifty (s : List Char) (max_length : Nat)
    (h1 : 1 ≤ max_length) (h2 : max_length < 50) :
    (preprocess_sequences max_length s).length = 50 ∧
    max_length < (preprocess_sequences max_length s).length := by
  have hlen : (preprocess_sequences max_length s).length = 50 := by
    unfold preprocess_sequences
    simp only
    set clean := (s.map Char.toUpper).filter isACGT
    have hc2 : (if max_length < clean.length then clean.take max_length else clean).length
        < 50 := by
      rcases Nat.lt_or_ge max_length clean.length with h | h
      · rw [if_pos h, List.length_take]; omega
      · rw [if_neg (Nat.not_lt.mpr h)]; omega
    set clean2 := if max_length < clean.length then clean.take max_length else clean
    rw [if_pos hc2, List.length_append, List.length_replicate]
    omega
  exact ⟨hlen, by omega⟩

/-- Witness for C10 at a concrete input. -/
theorem preprocess_small_max_length_yields_fifty_witness :
    (preprocess_sequences 10 ['A', 'C', 'G', 'T']).length = 50 ∧
    10 < (preprocess_sequences 10 ['A', 'C', 'G', 'T']).length :=
  preprocess_small_max_length_yields_fifty ['A', 'C', 'G', 'T'] 10 (by decide) (by decide)

/-- C9: the per-species environmental summary is keyed only by the names
'temperature', 'salinity', 'ph'; no columns list can ever produce a 'pH' key,
and for the pipeline's own columns — which store acidity as 'pH', not 'ph' —
the summary contains exactly the temperature and salinity entries, hence no
acidity entry at all. -/
theorem species_report_never_summarizes_pH :
    (∀ columns : List String, "pH" ∉ environmental_parameter_keys columns) ∧
    "pH" ∈ pipeline_dataframe_columns ∧
    environmental_parameter_keys pipeline_dataframe_columns = ["temperature", "salinity"] := by
  refine ⟨?_, by decide, by decide⟩
  intro columns hmem
  have h : "pH" ∈ species_env_param_names := List.mem_of_mem_filter hmem
  exact absurd h (by decide)

lemma dedup_of_constant {a : ℤ} (l : List ℤ) (hne : l ≠ []) (hall : ∀ c ∈ l, c = a) :
    l.dedup = [a] := by
  induction l with
  | nil => exact absurd rfl hne
  | cons b t ih =>
    have hb : b = a := hall b (by simp)
    subst hb
    rcases t with _ | ⟨x, t'⟩
    · simp
    · have hxt : ∀ c ∈ (x :: t'), c = b := fun c hc => hall c (by simp [hc])
      have hmem : b ∈ (x :: t') := by
        have hx : x = b := hxt x (by simp)
        simp [hx]
      rw [List.dedup_cons_of_mem hmem]
      exact ih (by simp) hxt

lemma value_counts_length (xs : List ℤ) : (value_counts xs).length = xs.dedup.length := by
  unfold value_counts
  rw [List.length_map]

lemma shannon_some_iff (assignment : List ℤ) :
    (calculate_biodiversity_metrics assignment).shannon_diversity ≠ none ↔
      2 ≤ assignment.dedup.length := by
  unfold calculate_biodiversity_metrics
  simp only
  by_cases h : 1 < (value_counts assignment).length
  · rw [if_pos h]
    have := value_counts_length assignment
    simp only [ne_eq, reduceCtorEq, not_false_iff, true_iff]
    omega
  · rw [if_neg h]
    have hv := value_counts_length assignment
    constructor
    · intro hcon
      exact absurd rfl hcon
    · intro hlen
      exact absurd (by omega : 1 < (value_counts assignment).length) h

/-- C6: when every record carries the noise sentinel -1, the metrics report 0
total clusters, a novel-candidate count equal to the dataset size, and no
`shannon_diversity` entry; in general the entry is present exactly when the
cluster column holds at least 2 distinct ids. -/
theorem noise_only_cluster_metrics (clusters : List ℤ) (hne : clusters ≠ [])
    (hall : ∀ c ∈ clusters, c = -1) :
    (calculate_biodiversity_metrics clusters).total_clusters = 0 ∧
    (calculate_biodiversity_metrics clusters).novel_candidates = clusters.length ∧
    (calculate_biodiversity_metrics clusters).shannon_diversity = none ∧
    ∀ assignment : List ℤ,
      ((calculate_biodiversity_metrics assignment).shannon_diversity ≠ none ↔
        2 ≤ assignment.dedup.length) := by
  have hded : clusters.dedup = [-1] := dedup_of_constant clusters hne hall
  refine ⟨?_, ?_, ?_, shannon_some_iff⟩
  · unfold calculate_biodiversity_metrics value_counts
    simp [hded]
  · unfold calculate_biodiversity_metrics
    simp only
    exact List.count_eq_length.mpr (fun b hb => (hall b hb).symm)
  · unfold calculate_biodiversity_metrics
    simp only
    rw [if_neg]
    rw [value_counts_length, hded]
    simp

/-- Witness for C6 at a concrete input. -/
theorem noise_only_cluster_metrics_witness :
    (calculate_biodiversity_metrics [-1, -1]).total_clusters = 0 ∧
    (calculate_biodiversity_metrics [-1, -1]).novel_candidates = 2 ∧
    (calculate_biodiversity_metrics [-1, -1]).shannon_diversity = none ∧
    ((calculate_biodiversity_metrics [0, 1]).shannon_diversity ≠ none ↔
      2 ≤ ([0, 1] : List ℤ).dedup.length) := by
  have h := noise_only_cluster_metrics [-1, -1] (by decide) (by decide)
  exact ⟨h.1, by simpa using h.2.1, h.2.2.1, h.2.2.2 [0, 1]⟩

lemma negMulLog_pos {x : ℝ} (h0 : 0 < x) (h1 : x < 1) : 0 < Real.negMulLog x := by
  have hlog : Real.log x < 0 := Real.log_neg h0 h1
  unfold Real.negMulLog
  nlinarith

lemma one_le_sum_of_ne_nil {l : List ℕ} (h : l ≠ []) (hx : ∀ x ∈ l, 1 ≤ x) :
    1 ≤ l.sum := by
  rcases l with _ | ⟨a, l'⟩
  · exact absurd rfl h
  · have ha := hx a (by simp)
    rw [List.sum_cons]
    omega

lemma mem_lt_sum_of_one_le {l : List ℕ} (hx : ∀ x ∈ l, 1 ≤ x) (hlen : 2 ≤ l.length) :
    ∀ x ∈ l, x < l.sum := by
  intro x hmem
  obtain ⟨s, t, rfl⟩ := List.append_of_mem hmem
  rw [List.sum_append, List.sum_cons]
  have hst : 1 ≤ s.sum + t.sum := by
    rcases s with _ | ⟨a, s'⟩
    · have ht : t ≠ [] := by
        intro h
        subst h
        simp at hlen
      have := one_le_sum_of_ne_nil ht (fun y hy => hx y (by simp [hy]))
      omega
    · have := one_le_sum_of_ne_nil (l := a :: s') (by simp)
        (fun y hy => hx y (by
          rcases List.mem_cons.mp hy with h | h
          · exact h ▸ List.mem_cons_self _ _
          · exact List.mem_cons_of_mem _ (List.mem_append_left _ h)))
      omega
  omega

lemma scipy_entropy_pos_of_counts {counts : List ℕ}
    (h1 : ∀ c ∈ counts, 1 ≤ c) (h2 : 2 ≤ counts.length) :
    0 < scipy_entropy (counts.map (fun (n : ℕ) => (n : ℝ))) := by
  have hsum : (counts.map (fun (n : ℕ) => (n : ℝ))).sum = (counts.sum : ℝ) := by
    rw [Nat.cast_list_sum]
  have hS : 0 < (counts.sum : ℝ) := by
    have hpos : 1 ≤ counts.sum :=
      one_le_sum_of_ne_nil (by rw [← List.length_pos]; omega) h1
    exact_mod_cast Nat.lt_of_lt_of_le Nat.zero_lt_one hpos
  unfold scipy_entropy
  apply List.sum_pos
  · intro x hxm
    rw [List.mem_map] at hxm
    obtain ⟨c, hc, rfl⟩ := hxm
    rw [List.mem_map] at hc
    obtain ⟨n, hn, rfl⟩ := hc
    apply negMulLog_pos
    · rw [hsum]
      apply div_pos _ hS
      exact_mod_cast Nat.lt_of_lt_of_le Nat.zero_lt_one (h1 n hn)
    · rw [hsum, div_lt_one hS]
      exact_mod_cast mem_lt_sum_of_one_le h1 h2 n hn
  · rw [← List.length_pos, List.length_map, List.length_map]
    omega

/-- C7 (amended): whenever the metrics report a Shannon diversity at all —
which happens exactly when at least 2 distinct cluster ids, the noise sentinel
included, occur — the reported value is strictly positive. -/
theorem reported_shannon_diversity_positive (clusters : List ℤ)
    (h2 : 2 ≤ clusters.dedup.length) :
    ∃ v, (calculate_biodiversity_metrics clusters).shannon_diversity = some v ∧ 0 < v := by
  unfold calculate_biodiversity_metrics
  simp only
  rw [if_pos (by rw [value_counts_length]; omega)]
  refine ⟨_, rfl, ?_⟩
  have hform : (value_counts clusters).map (fun p => ((p.2 : ℕ) : ℝ)) =
      ((value_counts clusters).map Prod.snd).map (fun (n : ℕ) => (n : ℝ)) := by
    rw [List.map_map]
    rfl
  rw [hform]
  apply scipy_entropy_pos_of_counts
  · intro c hcm
    rw [List.mem_map] at hcm
    obtain ⟨p, hp, rfl⟩ := hcm
    unfold value_counts at hp
    rw [List.mem_map] at hp
    obtain ⟨v, hv, rfl⟩ := hp
    have hvmem : v ∈ clusters := List.mem_dedup.mp hv
    exact List.count_pos_iff.mpr hvmem
  · rw [List.length_map, value_counts_length]
    exact h2

/-- Witness for the amended C7 at a concrete input. -/
theorem reported_shannon_diversity_positive_witness :
    ∃ v, (calculate_biodiversity_metrics [-1, 0]).shannon_diversity = some v ∧ 0 < v :=
  reported_shannon_diversity_positive [-1, 0] (by decide)

/-- Counterexample to C7 as stated: in the assignment [-1, 0, 0, 0] all
non-noise records fall in the single cluster 0, yet the reported Shannon
diversity is present and nonzero, because the scipy entropy is taken over the
full `value_counts`, the noise bucket -1 included. -/
theorem shannon_zero_iff_single_cluster_counterexample :
    ((([-1, 0, 0, 0] : List ℤ).filter (fun c => c != -1)).dedup.length = 1) ∧
    (calculate_biodiversity_metrics [-1, 0, 0, 0]).shannon_diversity ≠ none ∧
    (calculate_biodiversity_metrics [-1, 0, 0, 0]).shannon_diversity ≠ some 0 := by
  have hform : (calculate_biodiversity_metrics [-1, 0, 0, 0]).shannon_diversity =
      some (scipy_entropy (([1, 3] : List ℕ).map (fun (n : ℕ) => (n : ℝ)))) := rfl
  have hpos : 0 < scipy_entropy (([1, 3] : List ℕ).map (fun (n : ℕ) => (n : ℝ))) :=
    scipy_entropy_pos_of_counts (by decide) (by decide)
  refine ⟨by decide, ?_, ?_⟩
  · rw [hform]
    simp
  · rw [hform]
    intro h
    rw [Option.some_inj] at h
    rw [h] at hpos
    exact lt_irrefl 0 hpos

lemma exists_of_mem_zipWith {α β γ : Type} {f : α → β → γ} :
    ∀ {l1 : List α} {l2 : List β} {x : γ}, x ∈ List.zipWith f l1 l2 →
      ∃ a b, a ∈ l1 ∧ b ∈ l2 ∧ x = f a b := by
  intro l1
  induction l1 with
  | nil => intro l2 x hx; simp at hx
  | cons a t ih =>
    intro l2 x hx
    rcases l2 with _ | ⟨b, t2⟩
    · simp at hx
    · rw [List.zipWith_cons_cons] at hx
      rcases List.mem_cons.mp hx with h | h
      · exact ⟨a, b, by simp, by simp, h⟩
      · obtain ⟨a', b', ha, hb, hx'⟩ := ih h
        exact ⟨a', b', List.mem_cons_of_mem _ ha, List.mem_cons_of_mem _ hb, hx'⟩

/-- C1 (amended): `RealOceanEYEPipeline.fuse_embeddings` (and the identical
Kaggle copy) computes exactly the spec's rule — per-row L2 normalization of
both matrices, weighting, row-wise concatenation — with one output row per
record and `seq_dim + context_dim` columns; `OceanEYEPipeline.fuse_embeddings`
shares the row count and the output dimension but concatenates the raw,
unnormalized, unweighted rows. -/
theorem fusion_normalizes_weights_and_shapes (dna_weight context_weight : ℝ)
    (dna_embeddings context_embeddings : List (List ℝ)) (d1 d2 : ℕ)
    (hlen : dna_embeddings.length = context_embeddings.length)
    (hd1 : ∀ r ∈ dna_embeddings, r.length = d1)
    (hd2 : ∀ r ∈ context_embeddings, r.length = d2) :
    fuse_embeddings dna_weight context_weight dna_embeddings context_embeddings =
      fuse_rows_spec dna_weight context_weight dna_embeddings context_embeddings ∧
    (fuse_embeddings dna_weight context_weight dna_embeddings context_embeddings).length =
      dna_embeddings.length ∧
    (∀ row ∈ fuse_embeddings dna_weight context_weight dna_embeddings context_embeddings,
      row.length = d1 + d2) ∧
    (fuse_embeddings_plain dna_embeddings context_embeddings).length =
      dna_embeddings.length ∧
    (∀ row ∈ fuse_embeddings_plain dna_embeddings context_embeddings,
      row.length = d1 + d2) := by
  refine ⟨rfl, ?_, ?_, ?_, ?_⟩
  · unfold fuse_embeddings
    rw [List.length_zipWith]
    omega
  · intro row hrow
    unfold fuse_embeddings at hrow
    obtain ⟨d, c, hd, hc, rfl⟩ := exists_of_mem_zipWith hrow
    rw [List.length_append, List.length_map, List.length_map]
    unfold l2_normalize_row
    rw [List.length_map, List.length_map, hd1 d hd, hd2 c hc]
  · unfold fuse_embeddings_plain
    rw [List.length_zipWith]
    omega
  · intro row hrow
    unfold fuse_embeddings_plain at hrow
    obtain ⟨d, c, hd, hc, rfl⟩ := exists_of_mem_zipWith hrow
    rw [List.length_append, hd1 d hd, hd2 c hc]

/-- Witness for the amended C1 at a concrete input. -/
theorem fusion_normalizes_weights_and_shapes_witness :
    fuse_embeddings (8/10) (2/10) [[3, 4]] [[1, 0]] =
      fuse_rows_spec (8/10) (2/10) [[3, 4]] [[1, 0]] ∧
    (fuse_embeddings (8/10) (2/10) [[3, 4]] [[1, 0]]).length = 1 ∧
    (∀ row ∈ fuse_embeddings (8/10) (2/10) [[3, 4]] [[1, 0]], row.length = 2 + 2) ∧
    (fuse_embeddings_plain [[3, 4]] [[1, 0]]).length = 1 ∧
    (∀ row ∈ fuse_embeddings_plain [[3, 4]] [[1, 0]], row.length = 2 + 2) := by
  have h := fusion_normalizes_weights_and_shapes (8/10) (2/10) [[3, 4]] [[1, 0]] 2 2
    (by simp) (by simp) (by simp)
  exact ⟨h.1, by simpa using h.2.1, h.2.2.1, by simpa using h.2.2.2.1, h.2.2.2.2⟩

/-- Counterexample to C1 as stated: `OceanEYEPipeline.fuse_embeddings` does not
apply the claimed normalize-and-weight rule — on the one-record dataset with
DNA row [3, 4] and context row [1, 0] its output differs from the spec's
fusion with the default weights 0.8 and 0.2. -/
theorem fusion_spec_counterexample_plain_pipeline :
    fuse_embeddings_plain [[3, 4]] [[1, 0]] ≠
      fuse_rows_spec (8/10) (2/10) [[3, 4]] [[1, 0]] := by
  have hnorm : l2_norm [(3 : ℝ), 4] = 5 := by
    unfold l2_norm
    rw [show (([(3 : ℝ), 4].map (fun x => x * x)).sum = 25) by
      norm_num [List.map_cons, List.map_nil, List.sum_cons, List.sum_nil]]
    rw [show (25 : ℝ) = 5 ^ 2 by norm_num]
    exact Real.sqrt_sq (by norm_num)
  intro heq
  simp only [fuse_embeddings_plain, fuse_rows_spec, l2_normalize_row,
    List.zipWith_cons_cons, List.zipWith_nil_right, List.map_cons, List.map_nil,
    List.cons_append, List.nil_append, hnorm] at heq
  rw [List.cons.injEq, List.cons.injEq] at heq
  norm_num at heq

lemma chunk_fueled_flatten {α : Type} (bs : ℕ) :
    ∀ (n : ℕ) (l : List α), l.length ≤ n → (chunk_fueled bs n l).flatten = l := by
  intro n
  induction n with
  | zero =>
    intro l hl
    rw [Nat.le_zero, List.length_eq_zero] at hl
    subst hl
    simp [chunk_fueled]
  | succ n ih =>
    intro l hl
    rcases l with _ | ⟨a, t⟩
    · simp [chunk_fueled]
    · simp only [chunk_fueled, List.flatten_cons]
      rw [ih (t.drop (bs - 1)) (by
        rw [List.length_drop]
        simp only [List.length_cons] at hl
        omega)]
      rw [List.cons_append, List.take_append_drop]

lemma chunk_flatten {α : Type} (bs : ℕ) (l : List α) : (chunk bs l).flatten = l :=
  chunk_fueled_flatten bs l.length l le_rfl

lemma embed_batch_with_fallback_length (oracle : List (List Char) → Except String (List (List ℝ)))
    (randn : ℕ → ℕ → ℝ) (batch : List (List Char))
    (hshape : ∀ rows, oracle batch = Except.ok rows → rows.length = batch.length) :
    (embed_batch_with_fallback oracle randn batch).length = batch.length := by
  unfold embed_batch_with_fallback
  cases horacle : oracle batch with
  | ok rows => exact hshape rows horacle
  | error e => rw [List.length_map, List.length_range]

lemma embed_batch_with_fallback_width (oracle : List (List Char) → Except String (List (List ℝ)))
    (randn : ℕ → ℕ → ℝ) (batch : List (List Char))
    (hshape : ∀ rows, oracle batch = Except.ok rows → ∀ r ∈ rows, r.length = 768) :
    ∀ r ∈ embed_batch_with_fallback oracle randn batch, r.length = 768 := by
  intro r hr
  unfold embed_batch_with_fallback at hr
  cases horacle : oracle batch with
  | ok rows =>
    simp only [horacle] at hr
    exact hshape rows horacle r hr
  | error e =>
    simp only [horacle] at hr
    rw [List.mem_map] at hr
    obtain ⟨i, _, rfl⟩ := hr
    rw [List.length_map, List.length_range]

lemma vstack_ok_of_uniform {blocks : List (List (List ℝ))} {w : ℕ}
    (hne : blocks.flatten ≠ [])
    (hw : ∀ r ∈ blocks.flatten, r.length = w) :
    vstack blocks = Except.ok blocks.flatten := by
  unfold vstack
  cases hfl : blocks.flatten with
  | nil => exact absurd hfl hne
  | cons r rs =>
    have hall : rs.all (fun row => row.length == r.length) = true := by
      rw [List.all_eq_true]
      intro row hrow
      have h1 : row.length = w := hw row (by rw [hfl]; exact List.mem_cons_of_mem _ hrow)
      have h2 : r.length = w := hw r (by rw [hfl]; exact List.mem_cons_self _ _)
      simp [h1, h2]
    simp [hall]

/-- C3 (amended): when the oracle's per-row width actually is 768, a failed
batch is replaced by a 768-wide placeholder block with one row per sequence of
the batch and the run continues, so the stacked matrix has exactly one
768-wide row per input sequence; `OceanEYEPipeline.generate_dna_embeddings`
(per-sequence loop, zero placeholder of `config.hidden_size`) always produces
one row per input sequence. -/
theorem failed_batches_get_placeholder_rows
    (oracle : List (List Char) → Except String (List (List ℝ)))
    (randn : ℕ → ℕ → ℝ) (max_length batch_size : ℕ)
    (raw_sequences : List (List Char)) (hne : raw_sequences ≠ [])
    (hshape : ∀ batch rows, oracle batch = Except.ok rows →
      rows.length = batch.length ∧ ∀ r ∈ rows, r.length = 768) :
    (∃ m, generate_dna_embeddings oracle randn max_length batch_size raw_sequences =
        Except.ok m ∧ m.length = raw_sequences.length ∧ ∀ r ∈ m, r.length = 768) ∧
    ∀ (embed_one : List Char → Except String (List ℝ)) (hidden_size : ℕ)
      (seqs : List (List Char)),
      (generate_dna_embeddings_plain embed_one hidden_size seqs).length = seqs.length := by
  constructor
  · unfold generate_dna_embeddings
    set sequences := raw_sequences.map (preprocess_sequences max_length) with hseq
    set batches := chunk batch_size sequences with hbat
    set blocks := batches.map (embed_batch_with_fallback oracle randn) with hblocks
    have hflat_len : blocks.flatten.length = sequences.length := by
      rw [List.length_flatten, hblocks, List.map_map]
      have hcong : ∀ batch ∈ batches,
          (List.length ∘ embed_batch_with_fallback oracle randn) batch = batch.length :=
        fun batch _ => embed_batch_with_fallback_length oracle randn batch
          (fun rows h => (hshape batch rows h).1)
      rw [List.map_congr_left hcong, ← List.length_flatten, hbat, chunk_flatten]
    have hwid : ∀ r ∈ blocks.flatten, r.length = 768 := by
      intro r hr
      rw [List.mem_flatten] at hr
      obtain ⟨block, hbl, hrbl⟩ := hr
      rw [hblocks, List.mem_map] at hbl
      obtain ⟨batch, _, rfl⟩ := hbl
      exact embed_batch_with_fallback_width oracle randn batch
        (fun rows h => (hshape batch rows h).2) r hrbl
    have hflat_ne : blocks.flatten ≠ [] := by
      rw [← List.length_pos, hflat_len, hseq, List.length_map, List.length_pos]
      exact hne
    refine ⟨blocks.flatten, vstack_ok_of_uniform hflat_ne hwid, ?_, hwid⟩
    rw [hflat_len, hseq, List.length_map]
  · intro embed_one hidden_size seqs
    unfold generate_dna_embeddings_plain
    rw [List.length_map]

/-- Witness for the amended C3 at a concrete input. -/
theorem failed_batches_get_placeholder_rows_witness :
    (∃ m, generate_dna_embeddings
        (fun batch => Except.ok (batch.map (fun _ => List.replicate 768 (0 : ℝ))))
        (fun _ _ => 0) 512 4 [['A']] =
        Except.ok m ∧ m.length = 1 ∧ ∀ r ∈ m, r.length = 768) ∧
    ∀ (embed_one : List Char → Except String (List ℝ)) (hidden_size : ℕ)
      (seqs : List (List Char)),
      (generate_dna_embeddings_plain embed_one hidden_size seqs).length = seqs.length := by
  have h := failed_batches_get_placeholder_rows
    (fun batch => Except.ok (batch.map (fun _ => List.replicate 768 (0 : ℝ))))
    (fun _ _ => 0) 512 4 [['A']] (by decide)
    (by
      intro batch rows hrows
      rw [Except.ok.injEq] at hrows
      subst hrows
      refine ⟨List.length_map _ _, ?_⟩
      intro r hr
      rw [List.mem_map] at hr
      obtain ⟨_, _, rfl⟩ := hr
      rw [List.length_replicate])
  obtain ⟨⟨m, hm, hlen, hwid⟩, hplain⟩ := h
  exact ⟨⟨m, hm, by simpa using hlen, hwid⟩, hplain⟩

set_option maxRecDepth 4000 in
/-- Counterexample to C3 as stated: with a model whose embedding width is 512
(not 768), a batch-size-1 run over two sequences in which the oracle embeds
the first batch and fails on the second substitutes a 768-wide placeholder.
Then `np.vstack` raises on the width mismatch, the exception escapes
`generate_dna_embeddings`, and the whole run fails — no embedding matrix with
one row per input sequence is produced. -/
theorem failed_batch_placeholder_counterexample :
    generate_dna_embeddings oracle_dim512 (fun _ _ => 0) 512 1 [['A'], ['C']] =
      Except.error "all the input array dimensions must match" := rfl

/-- C2 (amended): both top-level runs are total — every internal exception is
converted into a structured result and never propagates.
`RealOceanEYEPipeline.run_full_pipeline` reports 'success' with the report and
elapsed time, or 'failed' with an error description and the partial elapsed
time; `OceanEYEPipeline.run_full_pipeline` reports 'success' or 'error' (not
'failed'), with an error description but no elapsed time. -/
theorem run_full_pipeline_status_discriminators
    (load_model : Except String Unit)
    (load_fasta_data : Except String (List (List Char)))
    (oracle : List (List Char) → Except String (List (List ℝ)))
    (hdbscan : List (List ℝ) → Except String (List ℤ × List ℝ))
    (rng : ℕ → ℝ) (max_length batch_size : ℕ) (dna_weight context_weight : ℝ)
    (success_elapsed partial_elapsed : ℕ)
    (embed_one : List Char → Except String (List ℝ)) (hidden_size : ℕ)
    (hdbscan_plain : List (List ℝ) → Except String (List ℤ)) :
    (let r := run_full_pipeline_real load_model load_fasta_data oracle hdbscan rng
        max_length batch_size dna_weight context_weight success_elapsed partial_elapsed
     (r.status = "success" ∧ r.report.isSome ∧ r.processing_time = some success_elapsed) ∨
     (r.status = "failed" ∧ r.error.isSome ∧ r.processing_time = some partial_elapsed)) ∧
    (let p := run_full_pipeline_plain load_model load_fasta_data embed_one hidden_size
        hdbscan_plain rng
     (p.status = "success" ∧ p.report.isSome ∧ p.processing_time = none) ∨
     (p.status = "error" ∧ p.error.isSome ∧ p.processing_time = none)) := by
  constructor
  · dsimp only
    unfold run_full_pipeline_real
    cases pipeline_body_real load_model load_fasta_data oracle hdbscan rng
        max_length batch_size dna_weight context_weight with
    | ok r => exact Or.inl ⟨rfl, rfl, rfl⟩
    | error e => exact Or.inr ⟨rfl, rfl, rfl⟩
  · dsimp only
    unfold run_full_pipeline_plain
    cases pipeline_body_plain load_model load_fasta_data embed_one hidden_size
        hdbscan_plain rng with
    | ok labels => exact Or.inl ⟨rfl, rfl, rfl⟩
    | error e => exact Or.inr ⟨rfl, rfl, rfl⟩

/-- Counterexample to C2 as stated: when model loading raises,
`OceanEYEPipeline.run_full_pipeline` returns the discriminator 'error', not
'failed', and carries no elapsed-time field. -/
theorem run_full_pipeline_plain_counterexample :
    (run_full_pipeline_plain (Except.error "model load failed") (Except.ok [])
        (fun _ => Except.ok []) 768 (fun _ => Except.ok []) (fun _ => 0)).status = "error" ∧
    (run_full_pipeline_plain (Except.error "model load failed") (Except.ok [])
        (fun _ => Except.ok []) 768 (fun _ => Except.ok []) (fun _ => 0)).status ≠ "failed" ∧
    (run_full_pipeline_plain (Except.error "model load failed") (Except.ok [])
        (fun _ => Except.ok []) 768 (fun _ => Except.ok []) (fun _ => 0)).processing_time =
      none := by
  have hstatus : (run_full_pipeline_plain (Except.error "model load failed") (Except.ok [])
      (fun _ => Except.ok []) 768 (fun _ => Except.ok []) (fun _ => 0)).status = "error" := rfl
  refine ⟨hstatus, ?_, rfl⟩
  rw [hstatus]
  decide

/-- C8: with the stochastic sources made explicit — the numpy stream that
fabricates the environmental covariates and fills failed-batch placeholders,
the embedding oracle, and the HDBSCAN procedure — two runs over identical
input sequences, identical streams (covariates) and identical parameters
produce identical results, in particular the same cluster id and the same
membership probability for every record. -/
theorem clustering_deterministic
    (oracle : List (List Char) → Except String (List (List ℝ)))
    (hdbscan : List (List ℝ) → Except String (List ℤ × List ℝ))
    (lm1 lm2 : Except String Unit)
    (lf1 lf2 : Except String (List (List Char)))
    (rng1 rng2 : ℕ → ℝ)
    (max_length1 max_length2 batch_size1 batch_size2 : ℕ)
    (dna_weight1 dna_weight2 context_weight1 context_weight2 : ℝ)
    (hlm : lm1 = lm2) (hlf : lf1 = lf2) (hrng : rng1 = rng2)
    (hml : max_length1 = max_length2) (hbs : batch_size1 = batch_size2)
    (hw1 : dna_weight1 = dna_weight2) (hw2 : context_weight1 = context_weight2) :
    pipeline_body_real lm1 lf1 oracle hdbscan rng1 max_length1 batch_size1
        dna_weight1 context_weight1 =
      pipeline_body_real lm2 lf2 oracle hdbscan rng2 max_length2 batch_size2
        dna_weight2 context_weight2 := by
  subst hlm hlf hrng hml hbs hw1 hw2
  rfl

/-- Witness for C8 at a concrete input. -/
theorem clustering_deterministic_witness :
    pipeline_body_real (Except.ok ()) (Except.ok [['A']]) (fun _ => Except.error "oom")
        (fun _ => Except.ok ([0], [1])) (fun _ => 0) 512 4 (8/10) (2/10) =
      pipeline_body_real (Except.ok ()) (Except.ok [['A']]) (fun _ => Except.error "oom")
        (fun _ => Except.ok ([0], [1])) (fun _ => 0) 512 4 (8/10) (2/10) :=
  clustering_deterministic _ _ _ _ _ _ _ _ _ _ _ _ _ _ _ _ rfl rfl rfl rfl rfl rfl rfl

end OceanEYE
